import Mathlib

/-!
Verification development for the agentic-state-protocol repository.

The repository ships one source file, `src/init_project.py` (the
project-scaffolding wizard); the recommendation pipeline described by the
specification (context detection, gap analysis, registry caching, scoring,
diversity ranking) is not part of the sources, so those components are
modelled from the specification text; each such definition carries a doc
comment starting with the words Modelled from the spec.

Python strings are embedded as lists of codepoints, `List Nat`; the regex
character classes of `init_project.py` are modelled over ASCII codepoints.
Scores are embedded as rationals.
-/

/-- Codepoints of a string literal; used to write concrete inputs. -/
def cp (s : String) : List Nat := s.data.map Char.toNat

/-- ASCII lowercasing of one codepoint, modelling Python `str.lower`. -/
def lowerCp (n : Nat) : Nat := if 65 ≤ n ∧ n ≤ 90 then n + 32 else n

/-- Membership in the regex class `\w` over ASCII: alphanumerics and underscore. -/
def isWordCp (n : Nat) : Bool :=
  decide ((48 ≤ n ∧ n ≤ 57) ∨ (65 ≤ n ∧ n ≤ 90) ∨ (97 ≤ n ∧ n ≤ 122) ∨ n = 95)

/-- Membership in the regex class `\s` over ASCII whitespace. -/
def isWsCp (n : Nat) : Bool := decide (n = 32 ∨ (9 ≤ n ∧ n ≤ 13))

/-- Characters kept by the substitution `[^\w\s-] -> nothing` in `slugify`
(src/init_project.py line 126). -/
def keepCp (n : Nat) : Bool := isWordCp n || isWsCp n || n == 45

/-- Characters matched by the run-collapsing class `[-\s]` in `slugify`
(src/init_project.py line 127). -/
def isDashWsCp (n : Nat) : Bool := isWsCp n || n == 45

/-- Underscore test, for Python `strip` with argument underscore. -/
def isUnderscoreCp (n : Nat) : Bool := n == 95

/-- Replaces each maximal run of `[-\s]` characters by a single underscore,
modelling the substitution `[-\s]+ -> underscore` of `slugify`; the flag
records whether the scanner is currently inside a run. -/
def collapseRuns : Bool → List Nat → List Nat
  | _, [] => []
  | inRun, c :: rest =>
    if isDashWsCp c then
      if inRun then collapseRuns true rest else 95 :: collapseRuns true rest
    else c :: collapseRuns false rest

/-- Strips characters satisfying `p` from both ends of a list, modelling
Python `str.strip`. -/
def stripBoth (p : Nat → Bool) (l : List Nat) : List Nat :=
  ((l.dropWhile p).reverse.dropWhile p).reverse

/-- Model of `slugify` (src/init_project.py lines 123-128): lowercase the
text, delete characters outside the word/space/hyphen classes, collapse
hyphen/space runs to single underscores, and strip underscores at both
ends. -/
def slugify (text : List Nat) : List Nat :=
  stripBoth isUnderscoreCp (collapseRuns false ((text.map lowerCp).filter keepCp))

/-- Model of `prompt_yes_no` (src/init_project.py lines 165-172) as a
function of the raw answer text and the default: the answer is stripped
and lowercased; an empty answer yields the default, any other answer
yields membership in the pair of words y and yes. -/
def prompt_yes_no (raw : List Nat) (dflt : Bool) : Bool :=
  let answer := (stripBoth isWsCp raw).map lowerCp
  if answer = [] then dflt
  else answer == cp "y" || answer == cp "yes"

/-- Tests whether `pat` occurs at the start of `l`. -/
def leadsWith : List Nat → List Nat → Bool
  | [], _ => true
  | _ :: _, [] => false
  | p :: ps, c :: cs => p == c && leadsWith ps cs

/-- Fuelled scanner behind the model of Python `str.replace`: replaces
occurrences of `pat` by `repl`, non-overlapping, left to right, without
rescanning inserted text. One unit of fuel is spent per step and each step
consumes at least one character, so length-many units always suffice. -/
def replaceFuel (pat repl : List Nat) : Nat → List Nat → List Nat
  | 0, s => s
  | _ + 1, [] => []
  | fuel + 1, c :: rest =>
    if pat ≠ [] ∧ leadsWith pat (c :: rest) = true then
      repl ++ replaceFuel pat repl fuel (List.drop pat.length (c :: rest))
    else c :: replaceFuel pat repl fuel rest

/-- Model of Python `str.replace(pat, repl)` for a non-empty pattern. -/
def replaceAll (pat repl s : List Nat) : List Nat := replaceFuel pat repl s.length s

/-- Placeholder text for a key: two opening braces, the key, two closing
braces, as built by `process_template` (src/init_project.py line 212). -/
def placeholderCp (key : List Nat) : List Nat := 123 :: 123 :: (key ++ [125, 125])

/-- Model of the replacement loop of `process_template` (src/init_project.py
lines 211-212): the substitutions run sequentially, one full-text
`str.replace` per key, in the iteration order of the replacement map. -/
def applyReplacements (reps : List (List Nat × List Nat)) (content : List Nat) : List Nat :=
  reps.foldl (fun acc kv => replaceAll (placeholderCp kv.1) kv.2 acc) content

/-- File-system model: a map from paths to optional file contents. -/
def FS : Type := List Nat → Option (List Nat)

/-- Model of `process_template` (src/init_project.py lines 203-215): read
the template text, run the replacement loop, write the result to the
output path; reading a missing template is the error case. -/
def process_template (fs : FS) (tpath opath : List Nat)
    (reps : List (List Nat × List Nat)) : Option FS :=
  match fs tpath with
  | none => none
  | some content =>
    some (fun p => if p = opath then some (applyReplacements reps content) else fs p)

/-- Reads one path out of the optional file system returned by
`process_template`. -/
def writtenContent (r : Option FS) (p : List Nat) : Option (List Nat) :=
  match r with
  | none => none
  | some fs => fs p

/-- Fuelled scanner behind `claimedSubst`. -/
def simultaneousSubstFuel (reps : List (List Nat × List Nat)) : Nat → List Nat → List Nat
  | _, [] => []
  | 0, s => s
  | fuel + 1, c :: rest =>
    match reps.find? (fun kv => leadsWith (placeholderCp kv.1) (c :: rest)) with
    | some kv =>
      kv.2 ++ simultaneousSubstFuel reps fuel (List.drop (placeholderCp kv.1).length (c :: rest))
    | none => c :: simultaneousSubstFuel reps fuel rest

/-- Substitution as worded by the claim about `process_template`: each
occurrence of each key's placeholder in the original template text is
replaced by that key's value, the values being inserted verbatim and never
rescanned. Defined to compare the claimed behaviour against the
sequential loop the code actually runs. -/
def claimedSubst (reps : List (List Nat × List Nat)) (content : List Nat) : List Nat :=
  simultaneousSubstFuel reps content.length content

/-- Template text consisting of the placeholder of key A alone. -/
def exTemplateA : List Nat := placeholderCp (cp "A")

/-- Replacement map sending A to the placeholder of B and B to the letter x. -/
def exRepsSeq : List (List Nat × List Nat) := [(cp "A", placeholderCp (cp "B")), (cp "B", cp "x")]

/-- Replacement map sending A to the letter x. -/
def exRepsOne : List (List Nat × List Nat) := [(cp "A", cp "x")]

/-- File system holding the single-placeholder template at path tpl. -/
def exFS1 : FS := fun p => if p = cp "tpl" then some exTemplateA else none

/-- The command set of the python key in `DEFAULT_COMMANDS`
(src/init_project.py lines 64-76). -/
def pythonCommands : List (String × String) :=
  [ ("ENVIRONMENT_ACTIVATION", "source .venv/bin/activate  # or: conda activate myenv"),
    ("INSTALL_COMMAND", "pip install -e ."),
    ("VERIFY_COMMAND", "python --version && pip list"),
    ("RUN_COMMAND", "python -m \x7b\x7bPROJECT_SLUG\x7d\x7d"),
    ("TEST_COMMAND", "pytest tests/ -v"),
    ("TEST_SINGLE_COMMAND", "pytest tests/test_module.py -v"),
    ("TEST_COVERAGE_COMMAND", "pytest tests/ --cov=\x7b\x7bPROJECT_SLUG\x7d\x7d --cov-report=html"),
    ("FORMAT_COMMAND", "ruff format ."),
    ("LINT_COMMAND", "ruff check ."),
    ("TYPE_CHECK_COMMAND", "pyright"),
    ("BUILD_COMMAND", "pip install build && python -m build") ]

/-- The command set of the python_ml key in `DEFAULT_COMMANDS`
(src/init_project.py lines 77-89). -/
def pythonMlCommands : List (String × String) :=
  [ ("ENVIRONMENT_ACTIVATION", "conda activate myenv  # or: source .venv/bin/activate"),
    ("INSTALL_COMMAND", "pip install -e \x27.[dev,ml]\x27"),
    ("VERIFY_COMMAND", "python --version && pip list | grep -E \x27numpy|pandas|scikit|torch|xgboost\x27"),
    ("RUN_COMMAND", "python -m \x7b\x7bPROJECT_SLUG\x7d\x7d.train"),
    ("TEST_COMMAND", "pytest tests/ -v"),
    ("TEST_SINGLE_COMMAND", "pytest tests/test_model.py -v"),
    ("TEST_COVERAGE_COMMAND", "pytest tests/ --cov=\x7b\x7bPROJECT_SLUG\x7d\x7d --cov-report=html"),
    ("FORMAT_COMMAND", "ruff format ."),
    ("LINT_COMMAND", "ruff check ."),
    ("TYPE_CHECK_COMMAND", "pyright"),
    ("BUILD_COMMAND", "pip install build && python -m build") ]

/-- The command set of the python_geo key in `DEFAULT_COMMANDS`
(src/init_project.py lines 90-102). -/
def pythonGeoCommands : List (String × String) :=
  [ ("ENVIRONMENT_ACTIVATION", "conda activate myenv  # conda required for GDAL/geospatial"),
    ("INSTALL_COMMAND", "pip install -e \x27.[dev,geo]\x27"),
    ("VERIFY_COMMAND", "python -c \x22import rasterio; import geopandas; print(\x27OK\x27)\x22 && gdalinfo --version"),
    ("RUN_COMMAND", "python -m \x7b\x7bPROJECT_SLUG\x7d\x7d.pipeline"),
    ("TEST_COMMAND", "pytest tests/ -v"),
    ("TEST_SINGLE_COMMAND", "pytest tests/test_pipeline.py -v"),
    ("TEST_COVERAGE_COMMAND", "pytest tests/ --cov=\x7b\x7bPROJECT_SLUG\x7d\x7d --cov-report=html"),
    ("FORMAT_COMMAND", "ruff format ."),
    ("LINT_COMMAND", "ruff check ."),
    ("TYPE_CHECK_COMMAND", "pyright"),
    ("BUILD_COMMAND", "pip install build && python -m build") ]

/-- The command set of the python_web key in `DEFAULT_COMMANDS`
(src/init_project.py lines 103-115). -/
def pythonWebCommands : List (String × String) :=
  [ ("ENVIRONMENT_ACTIVATION", "conda activate myenv  # or: source .venv/bin/activate"),
    ("INSTALL_COMMAND", "pip install -e \x27.[dev,web]\x27"),
    ("VERIFY_COMMAND", "python --version && pip list | grep -E \x27streamlit|panel|dash|folium\x27"),
    ("RUN_COMMAND", "streamlit run src/\x7b\x7bPROJECT_SLUG\x7d\x7d/app.py  # or: panel serve src/\x7b\x7bPROJECT_SLUG\x7d\x7d/app.py"),
    ("TEST_COMMAND", "pytest tests/ -v"),
    ("TEST_SINGLE_COMMAND", "pytest tests/test_app.py -v"),
    ("TEST_COVERAGE_COMMAND", "pytest tests/ --cov=\x7b\x7bPROJECT_SLUG\x7d\x7d --cov-report=html"),
    ("FORMAT_COMMAND", "ruff format ."),
    ("LINT_COMMAND", "ruff check ."),
    ("TYPE_CHECK_COMMAND", "pyright"),
    ("BUILD_COMMAND", "pip install build && python -m build") ]

/-- The table `DEFAULT_COMMANDS` (src/init_project.py lines 63-116), an
association list from tech-stack key to command set. -/
def DEFAULT_COMMANDS : List (String × List (String × String)) :=
  [ ("python", pythonCommands),
    ("python_ml", pythonMlCommands),
    ("python_geo", pythonGeoCommands),
    ("python_web", pythonWebCommands) ]

/-- The blind-spots text of the python_ml key in `DOMAIN_BLIND_SPOTS`
(src/init_project.py lines 49-51). -/
def pythonMlBlindSpots : String :=
  "    - **Under-invest**: error handling, input validation, logging, reproducibility (seeds, versions), experiment tracking\n    - **Over-invest**: premature abstraction, configurability nobody will use, class hierarchies where functions suffice\n    - **Misjudge**: dependency choices (pinning vs ranges), state management, test strategy (data fixtures), naming conventions"

/-- The blind-spots text of the python_geo key in `DOMAIN_BLIND_SPOTS`
(src/init_project.py lines 52-54). -/
def pythonGeoBlindSpots : String :=
  "    - **Under-invest**: CRS validation, coordinate system consistency, error handling for corrupt rasters, reproducibility (seeds, library versions, GDAL config)\n    - **Over-invest**: premature abstraction, generic spatial frameworks when a simple script suffices, class hierarchies for one-off analyses\n    - **Misjudge**: dependency choices (GDAL version conflicts), memory management for large rasters, test strategy for geospatial data, data pipeline ordering"

/-- The blind-spots text of the python_web key in `DOMAIN_BLIND_SPOTS`
(src/init_project.py lines 55-57). -/
def pythonWebBlindSpots : String :=
  "    - **Under-invest**: input validation, error handling, deployment configuration, caching for expensive computations, logging\n    - **Over-invest**: premature optimization, complex state management for simple dashboards, unnecessary client-side logic\n    - **Misjudge**: dependency choices (framework selection), session management, test strategy for interactive visualizations"

/-- The blind-spots text of the python key in `DOMAIN_BLIND_SPOTS`
(src/init_project.py lines 58-60). -/
def pythonBlindSpots : String :=
  "    - **Under-invest**: error handling, input validation, logging, reproducibility (seeds, versions)\n    - **Over-invest**: premature abstraction, configurability nobody will use, class hierarchies where functions suffice\n    - **Misjudge**: dependency choices, state management, test strategy, naming conventions"

/-- The table `DOMAIN_BLIND_SPOTS` (src/init_project.py lines 48-61), an
association list from tech-stack key to blind-spots text. -/
def DOMAIN_BLIND_SPOTS : List (String × String) :=
  [ ("python_ml", pythonMlBlindSpots),
    ("python_geo", pythonGeoBlindSpots),
    ("python_web", pythonWebBlindSpots),
    ("python", pythonBlindSpots) ]

/-- Command-set resolution performed by `create_project`
(src/init_project.py line 477): table lookup with the python command set
as the default. -/
def commandsFor (techKey : String) : List (String × String) :=
  (DEFAULT_COMMANDS.lookup techKey).getD pythonCommands

/-- Blind-spots resolution performed by `create_project`
(src/init_project.py lines 517-520): table lookup with the python entry
as the default. -/
def blindSpotsFor (techKey : String) : String :=
  (DOMAIN_BLIND_SPOTS.lookup techKey).getD pythonBlindSpots

/-- Severity scale of issues and gaps (spec section 3). -/
inductive Severity
  | critical
  | high
  | medium
  | low
deriving DecidableEq

/-- Modelled from the spec (section 3): a candidate skill record; the
last-updated timestamp is kept as an age in days, and free-text fields are
codepoint strings. -/
structure RegistrySkill where
  identifier : List Nat
  name : List Nat
  description : List Nat
  category : List Nat
  tags : List (List Nat)
  languages : List (List Nat)
  stars : Nat
  installs : Nat
  lastUpdatedDays : Option Nat
  verified : Bool
  dependencies : List (List Nat)
  conflicts : List (List Nat)
deriving DecidableEq

/-- Modelled from the spec (section 3): a parsed documentation issue. -/
structure Issue where
  identifier : List Nat
  title : List Nat
  description : List Nat
  severity : Severity
deriving DecidableEq

/-- Modelled from the spec (section 3): a missing capability. -/
structure CapabilityGap where
  category : List Nat
  description : List Nat
  severity : Severity
  source : List Nat
  keywords : List (List Nat)
deriving DecidableEq

/-- Modelled from the spec (section 3): the project-context snapshot the
scorer consumes. -/
structure ProjectContext where
  primaryLanguage : List Nat
  secondaryLanguages : List (List Nat)
  frameworks : List (List Nat)
  projectType : List Nat
  dependencies : List (List Nat)
  devDependencies : List (List Nat)
  installedCapabilities : List (List Nat)
  contextKeywords : List (List Nat)
  issues : List Issue
  hasTests : Bool
  hasCI : Bool
  lintConfigured : Bool
  typeCheckingConfigured : Bool
deriving DecidableEq

/-- Modelled from the spec (section 4.4): the configurable scoring weights. -/
structure ScoringWeights where
  relevance : ℚ
  quality : ℚ
  need : ℚ
  compatibility : ℚ
deriving DecidableEq

/-- Default weights of the scorer (spec section 4.4). -/
def defaultWeights : ScoringWeights := ⟨3/10, 1/5, 7/20, 3/20⟩

/-- Sum of the four configured weights. -/
def weightsSum (w : ScoringWeights) : ℚ :=
  w.relevance + w.quality + w.need + w.compatibility

/-- Modelled from the spec (section 4.4): the fixed vocabulary aligning
project types with tags, used by the relevance bonus. -/
def TYPE_TAG_TABLE : List (List Nat × List (List Nat)) :=
  [ (cp "webapp", [cp "web", cp "frontend", cp "ui"]),
    (cp "api", [cp "api", cp "rest", cp "backend"]),
    (cp "library", [cp "library", cp "packaging"]),
    (cp "cli", [cp "cli", cp "terminal"]),
    (cp "data-pipeline", [cp "data", cp "pipeline", cp "etl"]) ]

/-- Number of entries of `xs` that also occur in `ys`. -/
def countMatches (xs ys : List (List Nat)) : Nat :=
  (xs.filter (fun x => decide (x ∈ ys))).length

/-- Modelled from the spec (section 4.4): the language term of the relevance
score — two fifths for an exact primary-language match, one fifth for a
secondary language, one tenth for a generic or unspecified language. -/
def relLangTerm (ctx : ProjectContext) (s : RegistrySkill) : ℚ :=
  if ctx.primaryLanguage ∈ s.languages then 2/5
  else if s.languages.any (fun l => decide (l ∈ ctx.secondaryLanguages)) then 1/5
  else if s.languages = [] ∨ cp "generic" ∈ s.languages then 1/10
  else 0

/-- Modelled from the spec (section 4.4): the framework-overlap term of the
relevance score, one tenth per match capped at three tenths. -/
def relFwTerm (ctx : ProjectContext) (s : RegistrySkill) : ℚ :=
  min (3/10) ((countMatches ctx.frameworks s.tags : ℚ) * (1/10))

/-- Modelled from the spec (section 4.4): the general tag-overlap term of
the relevance score, one twentieth per match capped at one fifth. -/
def relTagTerm (ctx : ProjectContext) (s : RegistrySkill) : ℚ :=
  min (1/5) ((countMatches ctx.contextKeywords s.tags : ℚ) * (1/20))

/-- Modelled from the spec (section 4.4): the project-type alignment bonus
of the relevance score. -/
def relTypeTerm (ctx : ProjectContext) (s : RegistrySkill) : ℚ :=
  match TYPE_TAG_TABLE.lookup ctx.projectType with
  | some tl => if s.tags.any (fun t => decide (t ∈ tl)) then 1/10 else 0
  | none => 0

/-- Modelled from the spec (section 4.4): the relevance sub-score, the sum
of the four terms capped at one. -/
def relevanceScore (ctx : ProjectContext) (s : RegistrySkill) : ℚ :=
  min 1 (relLangTerm ctx s + relFwTerm ctx s + relTagTerm ctx s + relTypeTerm ctx s)

/-- Fuelled structural base-two logarithm. -/
def log2Fuel : Nat → Nat → Nat
  | 0, _ => 0
  | fuel + 1, n => if n ≤ 1 then 0 else log2Fuel fuel (n / 2) + 1

/-- Base-two logarithm used by the popularity terms of the quality score. -/
def intLog2 (n : Nat) : Nat := log2Fuel n n

/-- Modelled from the spec (section 4.4): the freshness term of the quality
score — three tenths under thirty days, linear decay to twenty-one
hundredths by one hundred eighty days, steeper linear decay to one tenth by
three hundred sixty-five days, flat one tenth beyond, and three twentieths
by default when no timestamp is known. -/
def freshnessTerm : Option Nat → ℚ
  | none => 3/20
  | some d =>
    if d < 30 then 3/10
    else if d ≤ 180 then 3/10 - ((d : ℚ) - 30) * (3/5000)
    else if d ≤ 365 then 21/100 - ((d : ℚ) - 180) * (11/18500)
    else 1/10

/-- Modelled from the spec (section 4.4): the quality sub-score — logarithmic
star and install terms each capped at three tenths, the freshness term, and
one tenth for verification. -/
def qualityScore (s : RegistrySkill) : ℚ :=
  min (3/10) ((intLog2 (s.stars + 1) : ℚ) * (1/20))
    + min (3/10) ((intLog2 (s.installs + 1) : ℚ) * (1/20))
    + freshnessTerm s.lastUpdatedDays
    + (if s.verified then (1/10 : ℚ) else 0)

/-- Modelled from the spec (section 4.4): per-gap increments of the need
score by severity. -/
def severityBoost : Severity → ℚ
  | .critical => 1/4
  | .high => 3/20
  | .medium => 2/25
  | .low => 1/25

/-- Splits a codepoint string into whitespace-separated words; the first
argument accumulates the current word in reverse. -/
def splitWsAux : List Nat → List Nat → List (List Nat)
  | acc, [] => if acc = [] then [] else [acc.reverse]
  | acc, c :: rest =>
    if isWsCp c then
      if acc = [] then splitWsAux [] rest else acc.reverse :: splitWsAux [] rest
    else splitWsAux (c :: acc) rest

/-- Whitespace word splitting of a codepoint string. -/
def splitWords (l : List Nat) : List (List Nat) := splitWsAux [] l

/-- Modelled from the spec (section 4.4): the combined tag, category, name
and description keyword set of a skill. -/
def skillKeywords (s : RegistrySkill) : List (List Nat) :=
  s.tags ++ s.category :: (splitWords s.name ++ splitWords s.description)

/-- Number of distinct words of `a` that also occur in `b`. -/
def sharedWordCount (a b : List (List Nat)) : Nat :=
  (a.dedup.filter (fun w => decide (w ∈ b))).length

/-- Modelled from the spec (section 4.4): one gap's contribution to the need
score — the severity increment when at least two keywords are shared with
the skill's keyword set, one fiftieth for exactly one shared word. -/
def gapContribution (s : RegistrySkill) (g : CapabilityGap) : ℚ :=
  let shared := sharedWordCount g.keywords (skillKeywords s)
  if 2 ≤ shared then severityBoost g.severity
  else if shared = 1 then 1/50
  else 0

/-- Modelled from the spec (section 4.4): the need sub-score, a sum over
gaps capped at one. -/
def needScore (s : RegistrySkill) (gaps : List CapabilityGap) : ℚ :=
  min 1 ((gaps.map (gapContribution s)).sum)

/-- Modelled from the spec (section 4.4): protocol-alignment tags. -/
def PROTOCOL_TAGS : List (List Nat) :=
  [cp "agentic-state-protocol", cp "asp", cp "protocol"]

/-- Modelled from the spec (glossary): the recognized package kinds. -/
def RECOGNIZED_KINDS : List (List Nat) :=
  [cp "skills", cp "agents", cp "commands", cp "hooks"]

/-- Tests whether `pat` occurs as a contiguous sub-sequence of `s`. -/
def containsAt : List Nat → List Nat → Bool
  | [], pat => pat == []
  | c :: rest, pat => leadsWith pat (c :: rest) || containsAt rest pat

/-- Codepoint-wise lowercasing of a string. -/
def lowerAll (l : List Nat) : List Nat := l.map lowerCp

/-- Modelled from the spec (section 9, open question): the category of an
installed item is inferred from its name by a keyword heuristic. -/
def inferCategory (nm : List Nat) : List Nat :=
  if containsAt nm (cp "agent") then cp "agents"
  else if containsAt nm (cp "command") then cp "commands"
  else if containsAt nm (cp "hook") then cp "hooks"
  else cp "skills"

/-- Modelled from the spec (section 4.4): the compatibility sub-score is
base three fifths, minus one fifth per explicit conflict with an installed
capability, minus three hundredths per installed item sharing the
candidate's inferred category, plus one tenth for a protocol-alignment tag,
plus one tenth for a recognized kind, plus one fifth scaled by the
satisfiable fraction of declared dependencies (full when none are
declared), clamped to the unit interval; this is the count of explicit
conflicts with installed capabilities. -/
def compConflictCount (ctx : ProjectContext) (s : RegistrySkill) : Nat :=
  (s.conflicts.filter (fun c => decide (c ∈ ctx.installedCapabilities))).length

/-- Number of installed items whose inferred category matches the
candidate's category. -/
def compSameCatCount (ctx : ProjectContext) (s : RegistrySkill) : Nat :=
  (ctx.installedCapabilities.filter (fun n => decide (inferCategory n = s.category))).length

/-- Protocol-alignment bonus of the compatibility score. -/
def compProtocolBonus (s : RegistrySkill) : ℚ :=
  if s.tags.any (fun t => decide (t ∈ PROTOCOL_TAGS)) then 1/10 else 0

/-- Recognized-kind bonus of the compatibility score. -/
def compKindBonus (s : RegistrySkill) : ℚ :=
  if s.category ∈ RECOGNIZED_KINDS then 1/10 else 0

/-- Dependency term of the compatibility score: one fifth when no
dependency is declared, else one fifth scaled by the satisfiable
fraction. -/
def compDepTerm (ctx : ProjectContext) (s : RegistrySkill) : ℚ :=
  if s.dependencies = [] then 1/5
  else
    (1/5) * (((s.dependencies.filter
      (fun d => decide (d ∈ ctx.dependencies ∨ d ∈ ctx.devDependencies))).length : ℚ)
        / (s.dependencies.length : ℚ))

/-- Modelled from the spec (section 4.4): the compatibility sub-score
assembled from the parts above and clamped to the unit interval. -/
def compatibilityScore (ctx : ProjectContext) (s : RegistrySkill) : ℚ :=
  max 0 (min 1 ((3/5) - (compConflictCount ctx s : ℚ) * (1/5)
    - (compSameCatCount ctx s : ℚ) * (3/100)
    + compProtocolBonus s + compKindBonus s + compDepTerm ctx s))

/-- Modelled from the spec (section 4.4): the weighted total score. -/
def totalScore (w : ScoringWeights) (ctx : ProjectContext) (gaps : List CapabilityGap)
    (s : RegistrySkill) : ℚ :=
  w.relevance * relevanceScore ctx s + w.quality * qualityScore s
    + w.need * needScore s gaps + w.compatibility * compatibilityScore ctx s

/-- Modelled from the spec (section 3): the output unit of the scorer,
restricted to the score components the claims are about. -/
structure SkillRecommendation where
  skill : RegistrySkill
  relevance : ℚ
  quality : ℚ
  need : ℚ
  compatibility : ℚ
  total : ℚ
deriving DecidableEq

/-- Modelled from the spec (section 4.4): scoring one candidate skill. -/
def scoreSkill (w : ScoringWeights) (ctx : ProjectContext) (gaps : List CapabilityGap)
    (s : RegistrySkill) : SkillRecommendation :=
  ⟨s, relevanceScore ctx s, qualityScore s, needScore s gaps, compatibilityScore ctx s,
    totalScore w ctx gaps s⟩

/-- Modelled from the spec (section 3): the persisted registry cache; the
derivable indices are omitted since they can be reconstructed. -/
structure RegistryCache where
  skills : List RegistrySkill
  lastRefresh : Nat
  ttlHours : Nat
deriving DecidableEq

/-- Modelled from the spec (sections 3 and 8): cache validity — the age in
seconds is strictly below the time-to-live in hours times 3600. -/
def isCacheValid (now : Nat) (c : RegistryCache) : Bool :=
  decide (now - c.lastRefresh < c.ttlHours * 3600)

/-- Modelled from the spec (section 4.3): the small fixed built-in catalog
used as the last fallback. -/
def BUILTIN_CATALOG : List RegistrySkill :=
  [ { identifier := cp "asp-testing-basics"
      name := cp "testing basics"
      description := cp "pytest scaffolding and fixtures"
      category := cp "skills"
      tags := [cp "testing", cp "pytest"]
      languages := [cp "python"]
      stars := 0
      installs := 0
      lastUpdatedDays := none
      verified := true
      dependencies := []
      conflicts := [] },
    { identifier := cp "asp-lint-setup"
      name := cp "lint setup"
      description := cp "ruff configuration helper"
      category := cp "skills"
      tags := [cp "linting", cp "ruff"]
      languages := [cp "python"]
      stars := 0
      installs := 0
      lastUpdatedDays := none
      verified := true
      dependencies := []
      conflicts := [] } ]

/-- Modelled from the spec (section 4.3): registry acquisition with the
fallback chain. A valid cache short-circuits unless a refresh is forced;
otherwise the live-fetch outcome is consulted, where the empty list models
failure (every transport error, timeout or unparseable response is a soft
failure yielding no data); a failed fetch falls back to the stale on-disk
cache when one exists, ignoring its time-to-live, and to the built-in
catalog when no cache exists at all. -/
def getSkills (forceRefresh : Bool) (now : Nat) (cache : Option RegistryCache)
    (fetched : List RegistrySkill) : List RegistrySkill :=
  match cache with
  | some c =>
    if forceRefresh = false ∧ isCacheValid now c = true then c.skills
    else if fetched ≠ [] then fetched
    else c.skills
  | none => if fetched ≠ [] then fetched else BUILTIN_CATALOG

/-- Inserts a recommendation in front of the first entry with a smaller or
equal total score. -/
def insertRec (r : SkillRecommendation) :
    List SkillRecommendation → List SkillRecommendation
  | [] => [r]
  | x :: xs => if x.total ≤ r.total then r :: x :: xs else x :: insertRec r xs

/-- Insertion sort by descending total score. -/
def sortByScore : List SkillRecommendation → List SkillRecommendation
  | [] => []
  | r :: rs => insertRec r (sortByScore rs)

/-- Increments the running count of one category. -/
def bumpCount (counts : List Nat → Nat) (cat : List Nat) : List Nat → Nat :=
  fun x => if x = cat then counts x + 1 else counts x

/-- Modelled from the spec (section 4.5): the diversity scan — walk the
recommendations in score order and admit one only while its category's
running count is below the cap. -/
def diversityScan (cap : Nat) :
    (List Nat → Nat) → List SkillRecommendation → List SkillRecommendation
  | _, [] => []
  | counts, r :: rest =>
    if counts r.skill.category < cap then
      r :: diversityScan cap (bumpCount counts r.skill.category) rest
    else diversityScan cap counts rest

/-- Modelled from the spec (section 4.5): the ranking stage — drop
already-installed identifiers and entries below the threshold, sort by
descending total score, apply the diversity cap, truncate to the limit. -/
def rankRecommendations (installed : List (List Nat)) (threshold : ℚ) (limit cap : Nat)
    (recs : List SkillRecommendation) : List SkillRecommendation :=
  let eligible := recs.filter
    (fun r => decide (r.skill.identifier ∉ installed ∧ threshold ≤ r.total))
  (diversityScan cap (fun _ => 0) (sortByScore eligible)).take limit

/-- Number of entries of a recommendation list sharing one category. -/
def catCount (c : List Nat) (l : List SkillRecommendation) : Nat :=
  l.countP (fun r => r.skill.category == c)

/-- Case-insensitive containment of a lowercase marker in a name. -/
def textContains (hay pat : List Nat) : Bool := containsAt (lowerAll hay) pat

/-- Modelled from the spec (section 4.2, phase 1): one expected standard
capability of the per-language table. -/
structure StandardCap where
  category : List Nat
  coveredBy : List (List Nat)
  keywords : List (List Nat)
  severity : Severity
deriving DecidableEq

/-- Modelled from the spec (section 4.2, phase 1): the expected standard
capabilities of the python language. -/
def STANDARD_CAPS : List StandardCap :=
  [ ⟨cp "testing", [cp "pytest", cp "unittest"], [cp "testing", cp "pytest", cp "tests"], .high⟩,
    ⟨cp "linting", [cp "ruff", cp "flake8", cp "pylint"], [cp "linting", cp "lint", cp "style"], .medium⟩,
    ⟨cp "type_checking", [cp "mypy", cp "pyright"], [cp "type", cp "checking", cp "types"], .medium⟩,
    ⟨cp "security", [cp "bandit", cp "safety"], [cp "security", cp "vulnerability", cp "audit"], .high⟩,
    ⟨cp "formatting", [cp "black", cp "ruff"], [cp "formatting", cp "format", cp "style"], .low⟩,
    ⟨cp "documentation", [cp "sphinx", cp "mkdocs"], [cp "documentation", cp "docs"], .low⟩,
    ⟨cp "dependency_audit", [cp "pip-audit", cp "dependabot"], [cp "dependency", cp "audit", cp "update"], .medium⟩ ]

/-- Modelled from the spec (section 4.2, phase 1): a capability counts as
covered when any installed-capability or dependency name contains one of
its markers, case-insensitively. -/
def capCovered (ctx : ProjectContext) (markers : List (List Nat)) : Bool :=
  (ctx.installedCapabilities ++ ctx.dependencies ++ ctx.devDependencies).any
    (fun nm => markers.any (fun m => textContains nm m))

/-- Modelled from the spec (section 4.2, phase 1): uncovered standard
capabilities of the python language become gaps. -/
def standardGaps (ctx : ProjectContext) : List CapabilityGap :=
  if ctx.primaryLanguage = cp "python" then
    (STANDARD_CAPS.filter (fun e => !(capCovered ctx e.coveredBy))).map
      (fun e => ⟨e.category, e.category, e.severity, cp "standard", e.keywords⟩)
  else []

/-- Modelled from the spec (section 4.2, phase 2): the keyword-to-category
table classifying issues, first match wins. -/
def ISSUE_CATEGORY_TABLE : List (List Nat × List Nat) :=
  [ (cp "injection", cp "security"),
    (cp "vulnerability", cp "security"),
    (cp "security", cp "security"),
    (cp "slow", cp "performance"),
    (cp "memory", cp "performance"),
    (cp "crash", cp "reliability"),
    (cp "test", cp "testing") ]

/-- Modelled from the spec (section 4.2, phase 2): classify one issue by
scanning its combined title and description against the category table. -/
def classifyIssue (iss : Issue) : Option (List Nat) :=
  (ISSUE_CATEGORY_TABLE.find?
    (fun e => textContains (iss.title ++ 32 :: iss.description) e.1)).map (fun e => e.2)

/-- Modelled from the spec (section 4.1): keyword tags of an issue, the
lowercase title words longer than three characters. -/
def issueKeywords (iss : Issue) : List (List Nat) :=
  (splitWords (lowerAll iss.title)).filter (fun w => decide (4 ≤ w.length))

/-- Modelled from the spec (section 4.2, phase 2): critical and high issues
that the table classifies become gaps carrying the issue's severity. -/
def issueGaps (issues : List Issue) : List CapabilityGap :=
  (issues.filter (fun i => decide (i.severity = .critical ∨ i.severity = .high))).filterMap
    (fun i => (classifyIssue i).map
      (fun cat => ⟨cat, i.title, i.severity, cp "issue-" ++ i.identifier, issueKeywords i⟩))

/-- Modelled from the spec (section 4.2, phase 4): absent quality tooling
produces fixed gaps with fixed severities. -/
def qualityGaps (ctx : ProjectContext) : List CapabilityGap :=
  (if ctx.lintConfigured then [] else
    [⟨cp "linting", cp "no linter configured", .medium, cp "analysis", [cp "lint", cp "linting", cp "style"]⟩])
  ++ (if ctx.typeCheckingConfigured then [] else
    [⟨cp "type_checking", cp "no type checking", .medium, cp "analysis", [cp "type", cp "checking", cp "types"]⟩])
  ++ (if ctx.hasTests then [] else
    [⟨cp "testing", cp "no tests found", .high, cp "analysis", [cp "testing", cp "tests", cp "pytest"]⟩])
  ++ (if ctx.hasCI then [] else
    [⟨cp "ci", cp "no continuous integration", .medium, cp "analysis", [cp "ci", cp "automation", cp "workflow"]⟩])

/-- Modelled from the spec (section 4.2, phase 3): one project-type need,
optionally gated on a framework. -/
structure TypeNeed where
  category : List Nat
  keywords : List (List Nat)
  severity : Severity
  requiredFramework : Option (List Nat)
deriving DecidableEq

/-- Modelled from the spec (section 4.2, phase 3): needs by project type. -/
def PROJECT_TYPE_NEEDS : List (List Nat × List TypeNeed) :=
  [ (cp "webapp",
      [⟨cp "security", [cp "authentication", cp "session", cp "csrf"], .high, none⟩,
       ⟨cp "caching", [cp "cache", cp "caching", cp "redis"], .medium, none⟩]),
    (cp "api",
      [⟨cp "security", [cp "authentication", cp "ratelimit", cp "validation"], .high, none⟩,
       ⟨cp "documentation", [cp "openapi", cp "swagger", cp "docs"], .medium, some (cp "fastapi")⟩]),
    (cp "library",
      [⟨cp "packaging", [cp "packaging", cp "build", cp "release"], .medium, none⟩]),
    (cp "cli",
      [⟨cp "packaging", [cp "entrypoint", cp "packaging", cp "install"], .medium, none⟩]),
    (cp "data-pipeline",
      [⟨cp "data_validation", [cp "schema", cp "validation", cp "quality"], .high, none⟩]) ]

/-- Names of existing capabilities and dependencies joined as one text. -/
def joinedNames (ctx : ProjectContext) : List Nat :=
  ((ctx.installedCapabilities ++ ctx.dependencies).map (fun n => n ++ [32])).foldr
    (fun a b => a ++ b) []

/-- Modelled from the spec (section 4.2, phase 3): a need applies when its
framework precondition holds and none of its first three keywords already
appear among existing capability and dependency names joined as text. -/
def typeNeedApplies (ctx : ProjectContext) (n : TypeNeed) : Bool :=
  (match n.requiredFramework with
    | some f => decide (f ∈ ctx.frameworks)
    | none => true)
  && !((n.keywords.take 3).any (fun k => containsAt (joinedNames ctx) k))

/-- Modelled from the spec (section 4.2, phase 3): the project-type gaps. -/
def projectTypeGaps (ctx : ProjectContext) : List CapabilityGap :=
  match PROJECT_TYPE_NEEDS.lookup ctx.projectType with
  | none => []
  | some needs =>
    (needs.filter (typeNeedApplies ctx)).map
      (fun n => ⟨n.category, n.category, n.severity, cp "project_type", n.keywords⟩)

/-- Modelled from the spec (section 3): two gaps merge when they share a
category or at least three keywords. -/
def gapDup (a b : CapabilityGap) : Bool :=
  a.category == b.category || decide (3 ≤ sharedWordCount a.keywords b.keywords)

/-- De-duplication scan keeping the first of each merged group; the first
argument accumulates kept gaps in reverse. -/
def dedupGapsAux : List CapabilityGap → List CapabilityGap → List CapabilityGap
  | acc, [] => acc.reverse
  | acc, g :: rest =>
    if acc.any (fun k => gapDup k g) then dedupGapsAux acc rest
    else dedupGapsAux (g :: acc) rest

/-- Rank of a severity, most severe first. -/
def sevRank : Severity → Nat
  | .critical => 0
  | .high => 1
  | .medium => 2
  | .low => 3

/-- Inserts a gap in front of the first strictly less severe entry. -/
def insertGap (g : CapabilityGap) : List CapabilityGap → List CapabilityGap
  | [] => [g]
  | x :: xs => if sevRank g.severity ≤ sevRank x.severity then g :: x :: xs else x :: insertGap g xs

/-- Insertion sort of gaps by severity. -/
def sortGaps : List CapabilityGap → List CapabilityGap
  | [] => []
  | g :: gs => insertGap g (sortGaps gs)

/-- Modelled from the spec (section 4.2): the gap analyzer — the four phases
run independently, their results are de-duplicated and sorted by severity. -/
def analyzeGaps (ctx : ProjectContext) : List CapabilityGap :=
  sortGaps (dedupGapsAux []
    (standardGaps ctx ++ issueGaps ctx.issues ++ projectTypeGaps ctx ++ qualityGaps ctx))

/-- Modelled from the spec (sections 4.1 and 7): the raw, possibly partial
observations of a project; optional fields model missing or unparseable
artifacts, absorbed by defaults rather than propagated as errors. -/
structure RawProject where
  manifestLanguage : Option (List Nat)
  extensionCounts : List (List Nat × Nat)
  manifestDependencies : Option (List (List Nat))
  manifestDevDependencies : Option (List (List Nat))
  installedCapabilities : List (List Nat)
  frameworks : List (List Nat)
  projectType : Option (List Nat)
  issues : List Issue
  archKeywords : List (List Nat)
  goalText : List Nat
  secondaryLanguages : List (List Nat)
  hasTests : Bool
  hasCI : Bool
  lintConfigured : Bool
  typeCheckingConfigured : Bool
deriving DecidableEq

/-- Language with the highest file count, or the sentinel when every count
is zero or no extension is known. -/
def bestByCount : List (List Nat × Nat) → List Nat × Nat
  | [] => (cp "unknown", 0)
  | (l, n) :: rest =>
    let b := bestByCount rest
    if b.2 < n then (l, n) else b

/-- Modelled from the spec (section 4.1): primary-language detection — the
manifest table first, extension counting next, the sentinel last; this
never fails. -/
def detectPrimaryLanguage (raw : RawProject) : List Nat :=
  match raw.manifestLanguage with
  | some l => l
  | none => (bestByCount raw.extensionCounts).1

/-- Modelled from the spec (sections 4.1 and 7): context construction; every
parse failure is absorbed by an empty or default value. -/
def buildContext (raw : RawProject) : ProjectContext :=
  { primaryLanguage := detectPrimaryLanguage raw
    secondaryLanguages := raw.secondaryLanguages.take 5
    frameworks := raw.frameworks
    projectType := raw.projectType.getD (cp "library")
    dependencies := raw.manifestDependencies.getD []
    devDependencies := raw.manifestDevDependencies.getD []
    installedCapabilities := raw.installedCapabilities
    contextKeywords := raw.archKeywords ++ splitWords raw.goalText
    issues := raw.issues
    hasTests := raw.hasTests
    hasCI := raw.hasCI
    lintConfigured := raw.lintConfigured
    typeCheckingConfigured := raw.typeCheckingConfigured }

/-- Modelled from the spec (sections 2 and 7): the full recommendation
pipeline — context detection, gap analysis, registry acquisition through
the fallback chain, scoring, diversity-constrained ranking. The live-fetch
outcome is passed as data, the empty list meaning every network fetch
failed; the pipeline is a total function of its inputs. -/
def runPipeline (w : ScoringWeights) (raw : RawProject) (forceRefresh : Bool) (now : Nat)
    (cache : Option RegistryCache) (fetched : List RegistrySkill)
    (threshold : ℚ) (limit cap : Nat) : List SkillRecommendation :=
  let ctx := buildContext raw
  rankRecommendations ctx.installedCapabilities threshold limit cap
    ((getSkills forceRefresh now cache fetched).map (scoreSkill w ctx (analyzeGaps ctx)))

/-- Weights that sum to one but include a negative entry. -/
def badWeights : ScoringWeights := ⟨2, 0, 0, -1⟩

/-- Concrete project context used in the scoring examples. -/
def exScoreCtx : ProjectContext :=
  { primaryLanguage := cp "python"
    secondaryLanguages := []
    frameworks := [cp "fastapi", cp "sqlalchemy", cp "celery"]
    projectType := cp "api"
    dependencies := []
    devDependencies := []
    installedCapabilities := [cp "item-one", cp "item-two", cp "item-three"]
    contextKeywords := [cp "kw1", cp "kw2", cp "kw3", cp "kw4"]
    issues := []
    hasTests := false
    hasCI := false
    lintConfigured := false
    typeCheckingConfigured := false }

/-- Concrete candidate skill used in the scoring examples: fully relevant
(language, three framework tags, four keyword tags, project-type tag) and
fully incompatible (three conflicts with installed items, one unsatisfied
dependency, no bonuses). -/
def exScoreSkill : RegistrySkill :=
  { identifier := cp "sk-ex"
    name := cp "example"
    description := cp ""
    category := cp "misc"
    tags := [cp "fastapi", cp "sqlalchemy", cp "celery", cp "kw1", cp "kw2", cp "kw3", cp "kw4", cp "rest"]
    languages := [cp "python"]
    stars := 0
    installs := 0
    lastUpdatedDays := some 1000
    verified := false
    dependencies := [cp "unsatisfied-dep"]
    conflicts := [cp "item-one", cp "item-two", cp "item-three"] }

/-- A persisted cache whose skill list is empty and whose time-to-live has
elapsed. -/
def emptyStaleCache : RegistryCache := ⟨[], 0, 0⟩

/-- Concrete skill used in the need-score example. -/
def exNeedSkill : RegistrySkill :=
  { identifier := cp "need-ex"
    name := cp ""
    description := cp ""
    category := cp "skills"
    tags := [cp "testing", cp "pytest"]
    languages := [cp "python"]
    stars := 0
    installs := 0
    lastUpdatedDays := none
    verified := false
    dependencies := []
    conflicts := [] }

/-- Concrete gap sharing two keywords with `exNeedSkill`. -/
def exNeedGap : CapabilityGap :=
  ⟨cp "testing", cp "no tests found", .high, cp "standard", [cp "testing", cp "pytest"]⟩

/-- Lowercasing a codepoint twice is the same as lowercasing it once. -/
theorem lowerCp_idem (n : Nat) : lowerCp (lowerCp n) = lowerCp n := by
  unfold lowerCp
  by_cases h : 65 ≤ n ∧ n ≤ 90
  · simp only [if_pos h]
    rw [if_neg (by omega)]
  · simp only [if_neg h]

/-- Every character emitted by the run-collapsing scan is either an inserted
underscore or an input character outside the collapsed class. -/
theorem mem_collapseRuns {c : Nat} :
    ∀ (b : Bool) (l : List Nat), c ∈ collapseRuns b l →
      c = 95 ∨ (c ∈ l ∧ isDashWsCp c = false) := by
  intro b l
  induction l generalizing b with
  | nil => intro h; simp [collapseRuns] at h
  | cons a t ih =>
    intro h
    by_cases ha : isDashWsCp a = true
    · simp only [collapseRuns, ha, if_true] at h
      cases b with
      | true =>
        rcases ih true h with h95 | ⟨hm, hds⟩
        · exact Or.inl h95
        · exact Or.inr ⟨List.mem_cons_of_mem a hm, hds⟩
      | false =>
        rcases List.mem_cons.mp h with h95 | h'
        · exact Or.inl h95
        · rcases ih true h' with h95 | ⟨hm, hds⟩
          · exact Or.inl h95
          · exact Or.inr ⟨List.mem_cons_of_mem a hm, hds⟩
    · have ha' : isDashWsCp a = false := by
        cases hh : isDashWsCp a
        · rfl
        · exact absurd hh ha
      simp only [collapseRuns, ha', Bool.false_eq_true, if_false] at h
      rcases List.mem_cons.mp h with rfl | h'
      · exact Or.inr ⟨List.mem_cons_self c t, ha'⟩
      · rcases ih false h' with h95 | ⟨hm, hds⟩
        · exact Or.inl h95
        · exact Or.inr ⟨List.mem_cons_of_mem a hm, hds⟩

/-- The part dropped by `dropWhile` can be put back in front. -/
theorem dropWhile_decomp (p : Nat → Bool) (l : List Nat) :
    ∃ t, t ++ l.dropWhile p = l := by
  induction l with
  | nil => exact ⟨[], rfl⟩
  | cons a t ih =>
    by_cases ha : p a = true
    · obtain ⟨u, hu⟩ := ih
      exact ⟨a :: u, by simp [List.dropWhile_cons, ha, hu]⟩
    · exact ⟨[], by simp [List.dropWhile_cons, ha]⟩

/-- Membership is preserved backwards through `dropWhile`. -/
theorem mem_of_mem_dropWhile {c : Nat} {p : Nat → Bool} {l : List Nat}
    (h : c ∈ l.dropWhile p) : c ∈ l := by
  obtain ⟨t, ht⟩ := dropWhile_decomp p l
  rw [← ht]
  exact List.mem_append_right t h

/-- Dropping a satisfied run twice is the same as dropping it once. -/
theorem dropWhile_idem (p : Nat → Bool) (l : List Nat) :
    (l.dropWhile p).dropWhile p = l.dropWhile p := by
  induction l with
  | nil => rfl
  | cons a t ih =>
    by_cases ha : p a = true
    · simp [List.dropWhile_cons, ha, ih]
    · simp [List.dropWhile_cons, ha]

/-- Dropping a run never lengthens a list. -/
theorem length_dropWhile_le (p : Nat → Bool) (l : List Nat) :
    (l.dropWhile p).length ≤ l.length := by
  induction l with
  | nil => exact Nat.le_refl 0
  | cons a t ih =>
    by_cases ha : p a = true
    · simp only [List.dropWhile_cons, ha, if_true, List.length_cons]
      omega
    · simp [List.dropWhile_cons, ha]

/-- A front part of a list untouched by `dropWhile` is itself untouched. -/
theorem dropWhile_front_part {p : Nat → Bool} {L x t : List Nat}
    (hL : L.dropWhile p = L) (hx : x ++ t = L) : x.dropWhile p = x := by
  cases x with
  | nil => rfl
  | cons c xs =>
    have hc : p c = false := by
      cases hpc : p c
      · rfl
      · exfalso
        rw [← hx] at hL
        simp only [List.cons_append, List.dropWhile_cons, hpc, if_true] at hL
        have hlen : (List.dropWhile p (xs ++ t)).length = (xs ++ t).length + 1 := by
          rw [hL]
          rfl
        have hle := length_dropWhile_le p (xs ++ t)
        omega
    simp [List.dropWhile_cons, hc]

/-- Membership is preserved backwards through two-sided stripping. -/
theorem mem_of_mem_stripBoth {c : Nat} {p : Nat → Bool} {l : List Nat}
    (h : c ∈ stripBoth p l) : c ∈ l := by
  unfold stripBoth at h
  rw [List.mem_reverse] at h
  have h1 := mem_of_mem_dropWhile h
  rw [List.mem_reverse] at h1
  exact mem_of_mem_dropWhile h1

/-- Stripping both ends twice is the same as stripping them once. -/
theorem stripBoth_idem (p : Nat → Bool) (l : List Nat) :
    stripBoth p (stripBoth p l) = stripBoth p l := by
  have hA : (l.dropWhile p).dropWhile p = l.dropWhile p := dropWhile_idem p l
  obtain ⟨t, ht⟩ := dropWhile_decomp p (l.dropWhile p).reverse
  have hfront : stripBoth p l ++ t.reverse = l.dropWhile p := by
    have := congrArg List.reverse ht
    simpa [stripBoth] using this
  have hB : (stripBoth p l).dropWhile p = stripBoth p l :=
    dropWhile_front_part hA hfront
  have hrev : (stripBoth p l).reverse = ((l.dropWhile p).reverse).dropWhile p := by
    simp [stripBoth]
  calc stripBoth p (stripBoth p l)
      = (((stripBoth p l).dropWhile p).reverse.dropWhile p).reverse := rfl
    _ = ((stripBoth p l).reverse.dropWhile p).reverse := by rw [hB]
    _ = ((((l.dropWhile p).reverse).dropWhile p).dropWhile p).reverse := by rw [hrev]
    _ = (((l.dropWhile p).reverse).dropWhile p).reverse := by rw [dropWhile_idem]
    _ = stripBoth p l := rfl

/-- Every character of a slug is kept by the filter, fixed by lowercasing,
and outside the collapsed hyphen-space class. -/
theorem slugify_chars (s : List Nat) :
    ∀ c ∈ slugify s, keepCp c = true ∧ lowerCp c = c ∧ isDashWsCp c = false := by
  intro c hc
  have hc1 : c ∈ collapseRuns false ((s.map lowerCp).filter keepCp) :=
    mem_of_mem_stripBoth hc
  rcases mem_collapseRuns false _ hc1 with rfl | ⟨hm, hds⟩
  · exact ⟨by decide, by decide, by decide⟩
  · have hkeep : keepCp c = true := List.of_mem_filter hm
    have hmap : c ∈ s.map lowerCp := List.mem_of_mem_filter hm
    obtain ⟨a, _, rfl⟩ := List.mem_map.mp hmap
    exact ⟨hkeep, lowerCp_idem a, hds⟩

/-- A list of lowercase-fixed characters is fixed by the lowercasing map. -/
theorem map_lower_id {l : List Nat} (h : ∀ c ∈ l, lowerCp c = c) :
    l.map lowerCp = l := by
  induction l with
  | nil => rfl
  | cons a t ih =>
    simp only [List.map_cons, h a (List.mem_cons_self a t)]
    rw [ih (fun c hc => h c (List.mem_cons_of_mem a hc))]

/-- A list without collapsed-class characters is fixed by the collapsing
scan started outside a run. -/
theorem collapse_id {l : List Nat} (h : ∀ c ∈ l, isDashWsCp c = false) :
    collapseRuns false l = l := by
  induction l with
  | nil => rfl
  | cons a t ih =>
    simp only [collapseRuns, h a (List.mem_cons_self a t), Bool.false_eq_true, if_false]
    rw [ih (fun c hc => h c (List.mem_cons_of_mem a hc))]

/-- C8: `slugify` is idempotent — applying it to its own output returns the
output unchanged. -/
theorem slugify_idempotent (s : List Nat) : slugify (slugify s) = slugify s := by
  have hchars := slugify_chars s
  have h1 : (slugify s).map lowerCp = slugify s :=
    map_lower_id (fun c hc => (hchars c hc).2.1)
  have h2 : ((slugify s).map lowerCp).filter keepCp = slugify s := by
    rw [h1]
    exact List.filter_eq_self.mpr (fun c hc => (hchars c hc).1)
  have h3 : collapseRuns false (((slugify s).map lowerCp).filter keepCp) = slugify s := by
    rw [h2]
    exact collapse_id (fun c hc => (hchars c hc).2.2)
  calc slugify (slugify s)
      = stripBoth isUnderscoreCp (collapseRuns false (((slugify s).map lowerCp).filter keepCp)) := rfl
    _ = stripBoth isUnderscoreCp (slugify s) := by rw [h3]
    _ = stripBoth isUnderscoreCp
        (stripBoth isUnderscoreCp (collapseRuns false ((s.map lowerCp).filter keepCp))) := rfl
    _ = stripBoth isUnderscoreCp (collapseRuns false ((s.map lowerCp).filter keepCp)) :=
        stripBoth_idem _ _
    _ = slugify s := rfl

/-- Sample evaluation of the slug of a project name with punctuation. -/
theorem slugify_sample : slugify (cp "My Project!") = cp "my_project" := by decide

/-- C10: `prompt_yes_no` returns the default on an empty stripped answer,
true exactly on the stripped lowercased words y and yes, and false on every
other non-empty answer, whatever the default. -/
theorem prompt_yes_no_spec (raw : List Nat) (dflt : Bool) :
    (stripBoth isWsCp raw = [] → prompt_yes_no raw dflt = dflt)
    ∧ ((stripBoth isWsCp raw).map lowerCp = cp "y" ∨ (stripBoth isWsCp raw).map lowerCp = cp "yes" →
        prompt_yes_no raw dflt = true)
    ∧ (stripBoth isWsCp raw ≠ [] → (stripBoth isWsCp raw).map lowerCp ≠ cp "y" →
        (stripBoth isWsCp raw).map lowerCp ≠ cp "yes" → prompt_yes_no raw dflt = false) := by
  refine ⟨fun h => ?_, fun h => ?_, fun h1 h2 h3 => ?_⟩
  · simp [prompt_yes_no, h]
  · rcases h with h | h <;> simp [prompt_yes_no, h, cp]
  · simp [prompt_yes_no, h1, h2, h3]

/-- C10 witness: concrete answers — blank text gives the default, a spaced
uppercase Y gives true, another word gives false. -/
theorem prompt_yes_no_spec_witness :
    prompt_yes_no (cp "  ") true = true
    ∧ prompt_yes_no (cp " Y ") false = true
    ∧ prompt_yes_no (cp "nah") false = false :=
  ⟨(prompt_yes_no_spec (cp "  ") true).1 (by decide),
   (prompt_yes_no_spec (cp " Y ") false).2.1 (Or.inl (by decide)),
   (prompt_yes_no_spec (cp "nah") false).2.2 (by decide) (by decide) (by decide)⟩

/-- C1 counterexample: with the map sending A to the placeholder of B and B
to the letter x, on the template consisting of the placeholder of A, the
written output is the letter x, not the value of A as the claim's
simultaneous reading requires; and when the output path equals the template
path, the template file itself is overwritten. -/
theorem process_template_counterexample :
    writtenContent (process_template exFS1 (cp "tpl") (cp "out") exRepsSeq) (cp "out")
      ≠ some (claimedSubst exRepsSeq exTemplateA)
    ∧ writtenContent (process_template exFS1 (cp "tpl") (cp "tpl") exRepsOne) (cp "tpl")
      ≠ some exTemplateA := by
  decide

/-- C1 (amended): `process_template` writes to the output path the template
text with the substitutions applied sequentially in the map's iteration
order — each step replacing every occurrence of that key's placeholder, so
a value containing a later key's placeholder is itself substituted
further — leaves every other path unchanged, and in particular leaves the
template file unchanged whenever the output path differs from the template
path. -/
theorem process_template_amended (fs : FS) (tpath opath : List Nat)
    (reps : List (List Nat × List Nat)) (content : List Nat)
    (hread : fs tpath = some content) (hne : tpath ≠ opath) :
    writtenContent (process_template fs tpath opath reps) opath
      = some (applyReplacements reps content)
    ∧ (∀ p, p ≠ opath → writtenContent (process_template fs tpath opath reps) p = fs p)
    ∧ writtenContent (process_template fs tpath opath reps) tpath = some content := by
  have h : process_template fs tpath opath reps
      = some (fun p => if p = opath then some (applyReplacements reps content) else fs p) := by
    unfold process_template
    rw [hread]
  refine ⟨?_, fun p hp => ?_, ?_⟩
  · rw [h]
    show (if opath = opath then some (applyReplacements reps content) else fs opath) = _
    rw [if_pos rfl]
  · rw [h]
    show (if p = opath then some (applyReplacements reps content) else fs p) = fs p
    rw [if_neg hp]
  · rw [h]
    show (if tpath = opath then some (applyReplacements reps content) else fs tpath) = some content
    rw [if_neg hne, hread]

/-- C1 witness: processing the single-placeholder template to a distinct
output path writes the substituted text there and leaves the template text
readable unchanged at its own path. -/
theorem process_template_amended_witness :
    writtenContent (process_template exFS1 (cp "tpl") (cp "out") exRepsOne) (cp "out")
      = some (cp "x")
    ∧ writtenContent (process_template exFS1 (cp "tpl") (cp "out") exRepsOne) (cp "tpl")
      = some exTemplateA := by
  have h := process_template_amended exFS1 (cp "tpl") (cp "out") exRepsOne exTemplateA
    (by decide) (by decide)
  refine ⟨?_, h.2.2⟩
  rw [h.1]
  decide

/-- C9: resolution of the command set and the blind-spots text in
`create_project` is total — a key present in a table resolves to its entry,
and a key absent from a table falls back to that table's python entry. -/
theorem create_project_fallback (k : String) :
    (DEFAULT_COMMANDS.lookup k = none → commandsFor k = pythonCommands)
    ∧ (∀ v, DEFAULT_COMMANDS.lookup k = some v → commandsFor k = v)
    ∧ (DOMAIN_BLIND_SPOTS.lookup k = none → blindSpotsFor k = pythonBlindSpots)
    ∧ (∀ v, DOMAIN_BLIND_SPOTS.lookup k = some v → blindSpotsFor k = v) := by
  refine ⟨fun h => ?_, fun v h => ?_, fun h => ?_, fun v h => ?_⟩ <;>
    simp [commandsFor, blindSpotsFor, h]

/-- C9 witness: the unknown key rust resolves to the python command set and
python blind spots, and the known key python_geo resolves to its own
command set. -/
theorem create_project_fallback_witness :
    commandsFor "rust" = pythonCommands
    ∧ blindSpotsFor "rust" = pythonBlindSpots
    ∧ commandsFor "python_geo" = pythonGeoCommands :=
  ⟨(create_project_fallback "rust").1 (by decide),
   (create_project_fallback "rust").2.2.1 (by decide),
   (create_project_fallback "python_geo").2.1 pythonGeoCommands (by decide)⟩

/-- C5: cache validity is exactly the age in seconds being strictly below
the time-to-live in hours times 3600; in particular a cache built at time T
with a twenty-four hour time-to-live is valid twenty-three hours later and
invalid twenty-five hours later. -/
theorem cache_validity_spec (now lr ttl T : Nat) (skills : List RegistrySkill) :
    (isCacheValid now ⟨skills, lr, ttl⟩ = true ↔ now - lr < ttl * 3600)
    ∧ isCacheValid (T + 23 * 3600) ⟨skills, T, 24⟩ = true
    ∧ isCacheValid (T + 25 * 3600) ⟨skills, T, 24⟩ = false := by
  refine ⟨?_, ?_, ?_⟩
  · simp [isCacheValid]
  · simp only [isCacheValid, decide_eq_true_eq]
    omega
  · simp only [isCacheValid, decide_eq_false_iff_not]
    omega

/-- C3 counterexample: with a stale on-disk cache holding an empty skill
list, the fallback chain returns that empty list when every fetch fails,
so the chain's result is not always non-empty. -/
theorem fallback_empty_cache_counterexample :
    getSkills false 100 (some emptyStaleCache) [] = [] := by
  decide

/-- C3 (amended): when every network fetch fails — the fetch outcome is the
empty list — the chain returns the stale cache's skills whenever a disk
cache exists, which is non-empty whenever the cached skill list is
non-empty, and returns the non-empty built-in catalog whenever no disk
cache exists; the chain is a total function and reaches the caller in every
case. -/
theorem fallback_chain_amended (force : Bool) (now : Nat) (cache : Option RegistryCache) :
    (∀ c, cache = some c → getSkills force now cache [] = c.skills)
    ∧ (∀ c, cache = some c → c.skills ≠ [] → getSkills force now cache [] ≠ [])
    ∧ (cache = none → getSkills force now cache [] = BUILTIN_CATALOG)
    ∧ BUILTIN_CATALOG ≠ [] := by
  have hsome : ∀ c, cache = some c → getSkills force now cache [] = c.skills := by
    intro c hc
    subst hc
    by_cases h : force = false ∧ isCacheValid now c = true
    · simp [getSkills, h]
    · simp [getSkills, h]
  refine ⟨hsome, fun c hc hne => ?_, fun hc => ?_, by simp [BUILTIN_CATALOG]⟩
  · rw [hsome c hc]
    exact hne
  · subst hc
    simp [getSkills]

/-- C3 witness: a stale cache yields exactly its own skills, non-empty when
they are, and with no cache at all the chain yields the built-in catalog. -/
theorem fallback_chain_amended_witness :
    getSkills false 100 (some ⟨BUILTIN_CATALOG, 0, 0⟩) [] = BUILTIN_CATALOG
    ∧ getSkills false 100 (some ⟨BUILTIN_CATALOG, 0, 0⟩) [] ≠ []
    ∧ getSkills true 0 none [] = BUILTIN_CATALOG :=
  ⟨(fallback_chain_amended false 100 (some ⟨BUILTIN_CATALOG, 0, 0⟩)).1
      ⟨BUILTIN_CATALOG, 0, 0⟩ rfl,
   (fallback_chain_amended false 100 (some ⟨BUILTIN_CATALOG, 0, 0⟩)).2.1
      ⟨BUILTIN_CATALOG, 0, 0⟩ rfl (by decide),
   (fallback_chain_amended true 0 none).2.2.1 rfl⟩

/-- The language term of the relevance score lies between zero and two
fifths. -/
theorem relLangTerm_bounds (ctx : ProjectContext) (s : RegistrySkill) :
    0 ≤ relLangTerm ctx s ∧ relLangTerm ctx s ≤ 2/5 := by
  unfold relLangTerm
  split_ifs <;> norm_num

/-- The framework term of the relevance score lies between zero and three
tenths. -/
theorem relFwTerm_bounds (ctx : ProjectContext) (s : RegistrySkill) :
    0 ≤ relFwTerm ctx s ∧ relFwTerm ctx s ≤ 3/10 := by
  unfold relFwTerm
  constructor
  · apply le_min (by norm_num)
    positivity
  · exact min_le_left _ _

/-- The tag term of the relevance score lies between zero and one fifth. -/
theorem relTagTerm_bounds (ctx : ProjectContext) (s : RegistrySkill) :
    0 ≤ relTagTerm ctx s ∧ relTagTerm ctx s ≤ 1/5 := by
  unfold relTagTerm
  constructor
  · apply le_min (by norm_num)
    positivity
  · exact min_le_left _ _

/-- The project-type bonus of the relevance score lies between zero and one
tenth. -/
theorem relTypeTerm_bounds (ctx : ProjectContext) (s : RegistrySkill) :
    0 ≤ relTypeTerm ctx s ∧ relTypeTerm ctx s ≤ 1/10 := by
  unfold relTypeTerm
  cases TYPE_TAG_TABLE.lookup ctx.projectType with
  | none => norm_num
  | some tl =>
    simp only []
    split_ifs <;> norm_num

/-- The relevance sub-score lies in the unit interval. -/
theorem relevanceScore_bounds (ctx : ProjectContext) (s : RegistrySkill) :
    0 ≤ relevanceScore ctx s ∧ relevanceScore ctx s ≤ 1 := by
  obtain ⟨h1, _⟩ := relLangTerm_bounds ctx s
  obtain ⟨h2, _⟩ := relFwTerm_bounds ctx s
  obtain ⟨h3, _⟩ := relTagTerm_bounds ctx s
  obtain ⟨h4, _⟩ := relTypeTerm_bounds ctx s
  unfold relevanceScore
  exact ⟨le_min (by norm_num) (by linarith), min_le_left _ _⟩

/-- The freshness term lies between one tenth and three tenths. -/
theorem freshnessTerm_bounds (d : Option Nat) :
    1/10 ≤ freshnessTerm d ∧ freshnessTerm d ≤ 3/10 := by
  cases d with
  | none => norm_num [freshnessTerm]
  | some n =>
    simp only [freshnessTerm]
    split_ifs with h1 h2 h3
    · norm_num
    · have hn1 : (30:ℚ) ≤ (n:ℚ) := by exact_mod_cast Nat.not_lt.mp h1
      have hn2 : (n:ℚ) ≤ 180 := by exact_mod_cast h2
      constructor <;> linarith
    · have hn1 : (180:ℚ) < (n:ℚ) := by exact_mod_cast Nat.not_le.mp h2
      have hn2 : (n:ℚ) ≤ 365 := by exact_mod_cast h3
      constructor <;> linarith
    · norm_num

/-- The quality sub-score lies in the unit interval. -/
theorem qualityScore_bounds (s : RegistrySkill) :
    0 ≤ qualityScore s ∧ qualityScore s ≤ 1 := by
  obtain ⟨hf1, hf2⟩ := freshnessTerm_bounds s.lastUpdatedDays
  unfold qualityScore
  have hs1 : (0:ℚ) ≤ min (3/10) ((intLog2 (s.stars + 1) : ℚ) * (1/20)) := by
    apply le_min (by norm_num)
    positivity
  have hs2 : min ((3:ℚ)/10) ((intLog2 (s.stars + 1) : ℚ) * (1/20)) ≤ 3/10 := min_le_left _ _
  have hi1 : (0:ℚ) ≤ min (3/10) ((intLog2 (s.installs + 1) : ℚ) * (1/20)) := by
    apply le_min (by norm_num)
    positivity
  have hi2 : min ((3:ℚ)/10) ((intLog2 (s.installs + 1) : ℚ) * (1/20)) ≤ 3/10 := min_le_left _ _
  have hv1 : (0:ℚ) ≤ if s.verified then (1/10 : ℚ) else 0 := by split_ifs <;> norm_num
  have hv2 : (if s.verified then (1/10 : ℚ) else 0) ≤ 1/10 := by split_ifs <;> norm_num
  constructor <;> linarith

/-- Every per-gap contribution to the need score is non-negative. -/
theorem gapContribution_nonneg (s : RegistrySkill) (g : CapabilityGap) :
    0 ≤ gapContribution s g := by
  have hsev : ∀ sev, 0 ≤ severityBoost sev := by
    intro sev
    cases sev <;> norm_num [severityBoost]
  simp only [gapContribution]
  split_ifs
  · exact hsev g.severity
  · norm_num
  · exact le_refl 0

/-- The sum of the per-gap contributions is non-negative. -/
theorem gapSum_nonneg (s : RegistrySkill) (gaps : List CapabilityGap) :
    0 ≤ (gaps.map (gapContribution s)).sum := by
  apply List.sum_nonneg
  intro x hx
  obtain ⟨g, _, rfl⟩ := List.mem_map.mp hx
  exact gapContribution_nonneg s g

/-- The need sub-score lies in the unit interval. -/
theorem needScore_bounds (s : RegistrySkill) (gaps : List CapabilityGap) :
    0 ≤ needScore s gaps ∧ needScore s gaps ≤ 1 := by
  unfold needScore
  exact ⟨le_min (by norm_num) (gapSum_nonneg s gaps), min_le_left _ _⟩

/-- The compatibility sub-score lies in the unit interval. -/
theorem compatibilityScore_bounds (ctx : ProjectContext) (s : RegistrySkill) :
    0 ≤ compatibilityScore ctx s ∧ compatibilityScore ctx s ≤ 1 := by
  unfold compatibilityScore
  refine ⟨le_max_left 0 _, max_le (by norm_num) (min_le_left _ _)⟩

/-- C2 (amended): every one of the four sub-scores lies in the unit
interval unconditionally, and whenever the configured weights are each
non-negative and sum to one, the weighted total also lies in the unit
interval. -/
theorem score_bounds_amended (w : ScoringWeights) (ctx : ProjectContext)
    (gaps : List CapabilityGap) (s : RegistrySkill)
    (h0 : 0 ≤ w.relevance) (h1 : 0 ≤ w.quality) (h2 : 0 ≤ w.need)
    (h3 : 0 ≤ w.compatibility) (hsum : weightsSum w = 1) :
    (0 ≤ relevanceScore ctx s ∧ relevanceScore ctx s ≤ 1)
    ∧ (0 ≤ qualityScore s ∧ qualityScore s ≤ 1)
    ∧ (0 ≤ needScore s gaps ∧ needScore s gaps ≤ 1)
    ∧ (0 ≤ compatibilityScore ctx s ∧ compatibilityScore ctx s ≤ 1)
    ∧ (0 ≤ totalScore w ctx gaps s ∧ totalScore w ctx gaps s ≤ 1) := by
  obtain ⟨hr0, hr1⟩ := relevanceScore_bounds ctx s
  obtain ⟨hq0, hq1⟩ := qualityScore_bounds s
  obtain ⟨hn0, hn1⟩ := needScore_bounds s gaps
  obtain ⟨hc0, hc1⟩ := compatibilityScore_bounds ctx s
  refine ⟨⟨hr0, hr1⟩, ⟨hq0, hq1⟩, ⟨hn0, hn1⟩, ⟨hc0, hc1⟩, ?_, ?_⟩
  · unfold totalScore
    have := mul_nonneg h0 hr0
    have := mul_nonneg h1 hq0
    have := mul_nonneg h2 hn0
    have := mul_nonneg h3 hc0
    linarith
  · unfold totalScore
    have e0 : w.relevance * relevanceScore ctx s ≤ w.relevance :=
      mul_le_of_le_one_right h0 hr1
    have e1 : w.quality * qualityScore s ≤ w.quality :=
      mul_le_of_le_one_right h1 hq1
    have e2 : w.need * needScore s gaps ≤ w.need :=
      mul_le_of_le_one_right h2 hn1
    have e3 : w.compatibility * compatibilityScore ctx s ≤ w.compatibility :=
      mul_le_of_le_one_right h3 hc1
    unfold weightsSum at hsum
    linarith

/-- Evaluation of the relevance score at the fully relevant example. -/
theorem relevance_exScore : relevanceScore exScoreCtx exScoreSkill = 1 := by
  have hlang : relLangTerm exScoreCtx exScoreSkill = 2/5 := by
    unfold relLangTerm
    rw [if_pos (by decide)]
  have hfw : relFwTerm exScoreCtx exScoreSkill = 3/10 := by
    unfold relFwTerm
    rw [show countMatches exScoreCtx.frameworks exScoreSkill.tags = 3 from by decide]
    rw [min_def]
    norm_num
  have htag : relTagTerm exScoreCtx exScoreSkill = 1/5 := by
    unfold relTagTerm
    rw [show countMatches exScoreCtx.contextKeywords exScoreSkill.tags = 4 from by decide]
    rw [min_def]
    norm_num
  have htype : relTypeTerm exScoreCtx exScoreSkill = 1/10 := by
    unfold relTypeTerm
    rw [show TYPE_TAG_TABLE.lookup exScoreCtx.projectType
        = some [cp "api", cp "rest", cp "backend"] from by decide]
    show (if (exScoreSkill.tags.any fun t =>
        decide (t ∈ [cp "api", cp "rest", cp "backend"])) = true then (1:ℚ)/10 else 0) = 1/10
    rw [if_pos (by decide)]
  unfold relevanceScore
  rw [hlang, hfw, htag, htype, min_def]
  norm_num

/-- Evaluation of the compatibility score at the fully incompatible
example. -/
theorem compat_exScore : compatibilityScore exScoreCtx exScoreSkill = 0 := by
  have hconf : compConflictCount exScoreCtx exScoreSkill = 3 := by decide
  have hsame : compSameCatCount exScoreCtx exScoreSkill = 0 := by decide
  have hprot : compProtocolBonus exScoreSkill = 0 := by
    unfold compProtocolBonus
    rw [if_neg (by decide)]
  have hkind : compKindBonus exScoreSkill = 0 := by
    unfold compKindBonus
    rw [if_neg (by decide)]
  have hdep : compDepTerm exScoreCtx exScoreSkill = 0 := by
    unfold compDepTerm
    rw [if_neg (by decide)]
    rw [show (exScoreSkill.dependencies.filter
      (fun d => decide (d ∈ exScoreCtx.dependencies ∨ d ∈ exScoreCtx.devDependencies))).length
        = 0 from by decide]
    rw [show exScoreSkill.dependencies.length = 1 from by decide]
    norm_num
  unfold compatibilityScore
  rw [hconf, hsame, hprot, hkind, hdep]
  rw [min_def, max_def]
  norm_num

/-- C2 counterexample: the weights two, zero, zero and minus one sum to one,
yet at a fully relevant and fully incompatible candidate the weighted total
score is two, outside the unit interval. -/
theorem total_score_weights_counterexample :
    weightsSum badWeights = 1
    ∧ ¬ (totalScore badWeights exScoreCtx [] exScoreSkill ≤ 1) := by
  constructor
  · norm_num [weightsSum, badWeights]
  · unfold totalScore
    rw [relevance_exScore, compat_exScore]
    simp only [badWeights]
    norm_num

/-- The default weights are non-negative. -/
theorem defaultWeights_nonneg :
    0 ≤ defaultWeights.relevance ∧ 0 ≤ defaultWeights.quality
    ∧ 0 ≤ defaultWeights.need ∧ 0 ≤ defaultWeights.compatibility := by
  refine ⟨?_, ?_, ?_, ?_⟩ <;> norm_num [defaultWeights]

/-- The default weights sum to one. -/
theorem defaultWeights_sum : weightsSum defaultWeights = 1 := by
  norm_num [weightsSum, defaultWeights]

/-- C2 witness: at the default weights and the concrete example inputs, the
total score lies in the unit interval. -/
theorem score_bounds_amended_witness :
    0 ≤ totalScore defaultWeights exScoreCtx [] exScoreSkill
    ∧ totalScore defaultWeights exScoreCtx [] exScoreSkill ≤ 1 :=
  (score_bounds_amended defaultWeights exScoreCtx [] exScoreSkill
    defaultWeights_nonneg.1 defaultWeights_nonneg.2.1 defaultWeights_nonneg.2.2.1
    defaultWeights_nonneg.2.2.2 defaultWeights_sum).2.2.2.2

/-- C6: for a fixed skill, appending gaps that each share at least two
keywords with the skill's combined keyword set never decreases the need
score. -/
theorem need_score_monotone (s : RegistrySkill) (gaps extra : List CapabilityGap)
    (_h : ∀ g ∈ extra, 2 ≤ sharedWordCount g.keywords (skillKeywords s)) :
    needScore s gaps ≤ needScore s (gaps ++ extra) := by
  unfold needScore
  rw [List.map_append, List.sum_append]
  have hnn := gapSum_nonneg s extra
  exact min_le_min (le_refl 1) (by linarith)

/-- C6 witness: appending one concrete gap sharing two keywords with the
concrete skill keeps the need score from decreasing. -/
theorem need_score_monotone_witness :
    needScore exNeedSkill [] ≤ needScore exNeedSkill ([] ++ [exNeedGap]) :=
  need_score_monotone exNeedSkill [] [exNeedGap] (by decide)

/-- Bumping one category increments its own count. -/
theorem bumpCount_self (counts : List Nat → Nat) (cat : List Nat) :
    bumpCount counts cat cat = counts cat + 1 := by
  simp [bumpCount]

/-- Bumping one category leaves every other count unchanged. -/
theorem bumpCount_other (counts : List Nat → Nat) (cat c : List Nat) (h : c ≠ cat) :
    bumpCount counts cat c = counts c := by
  simp [bumpCount, h]

/-- Invariant of the diversity scan: the number of admitted entries of one
category never exceeds the cap minus that category's running count. -/
theorem diversityScan_catCount (cap : Nat) (c : List Nat) :
    ∀ (l : List SkillRecommendation) (counts : List Nat → Nat),
      catCount c (diversityScan cap counts l) ≤ cap - counts c := by
  intro l
  induction l with
  | nil =>
    intro counts
    simp [diversityScan, catCount]
  | cons r rest ih =>
    intro counts
    unfold diversityScan
    by_cases hadm : counts r.skill.category < cap
    · rw [if_pos hadm]
      unfold catCount
      rw [List.countP_cons]
      by_cases hc : r.skill.category = c
      · have h1 := ih (bumpCount counts r.skill.category)
        unfold catCount at h1
        rw [hc] at h1 hadm ⊢
        rw [bumpCount_self] at h1
        simp only [beq_self_eq_true, if_pos]
        omega
      · have h1 := ih (bumpCount counts r.skill.category)
        unfold catCount at h1
        rw [bumpCount_other counts r.skill.category c (fun he => hc he.symm)] at h1
        have hp : (r.skill.category == c) = false := by
          simp [hc]
        rw [hp]
        simpa using h1
    · rw [if_neg hadm]
      exact ih counts

/-- C4: the ranking stage never returns more than the per-category cap of
recommendations sharing one category, whatever the input distribution. -/
theorem diversity_cap_bound (installed : List (List Nat)) (threshold : ℚ) (limit cap : Nat)
    (recs : List SkillRecommendation) (c : List Nat) :
    catCount c (rankRecommendations installed threshold limit cap recs) ≤ cap := by
  unfold rankRecommendations
  have h2 := diversityScan_catCount cap c
    (sortByScore (recs.filter
      (fun r => decide (r.skill.identifier ∉ installed ∧ threshold ≤ r.total))))
    (fun _ => 0)
  rw [Nat.sub_zero] at h2
  refine le_trans ?_ h2
  unfold catCount
  exact List.Sublist.countP_le _ (List.take_sublist _ _)

/-- Membership in an insertion step: the new element or an old one. -/
theorem mem_insertRec {r x : SkillRecommendation} :
    ∀ {l : List SkillRecommendation}, x ∈ insertRec r l ↔ x = r ∨ x ∈ l := by
  intro l
  induction l with
  | nil => simp [insertRec]
  | cons a t ih =>
    unfold insertRec
    by_cases hc : a.total ≤ r.total
    · rw [if_pos hc]
      simp only [List.mem_cons]
    · rw [if_neg hc]
      simp only [List.mem_cons, ih]
      tauto

/-- Inserting into a descending list keeps it descending. -/
theorem pairwise_insertRec {r : SkillRecommendation} {l : List SkillRecommendation}
    (h : l.Pairwise (fun a b => b.total ≤ a.total)) :
    (insertRec r l).Pairwise (fun a b => b.total ≤ a.total) := by
  induction l with
  | nil => simp [insertRec]
  | cons x xs ih =>
    rw [List.pairwise_cons] at h
    obtain ⟨hx, hxs⟩ := h
    unfold insertRec
    by_cases hc : x.total ≤ r.total
    · rw [if_pos hc]
      refine List.Pairwise.cons ?_ (List.Pairwise.cons hx hxs)
      intro y hy
      rcases List.mem_cons.mp hy with rfl | hy'
      · exact hc
      · exact le_trans (hx y hy') hc
    · rw [if_neg hc]
      refine List.Pairwise.cons ?_ (ih hxs)
      intro y hy
      rcases mem_insertRec.mp hy with rfl | hy'
      · exact le_of_not_le hc
      · exact hx y hy'

/-- The insertion sort produces a descending list. -/
theorem pairwise_sortByScore (l : List SkillRecommendation) :
    (sortByScore l).Pairwise (fun a b => b.total ≤ a.total) := by
  induction l with
  | nil => simp [sortByScore]
  | cons r rs ih => exact pairwise_insertRec ih

/-- The insertion sort neither adds nor removes elements. -/
theorem mem_sortByScore {x : SkillRecommendation} :
    ∀ {l : List SkillRecommendation}, x ∈ sortByScore l ↔ x ∈ l := by
  intro l
  induction l with
  | nil => simp [sortByScore]
  | cons r rs ih =>
    unfold sortByScore
    rw [mem_insertRec, ih, List.mem_cons]

/-- The diversity scan keeps a sublist of its input. -/
theorem diversityScan_sublist (cap : Nat) :
    ∀ (l : List SkillRecommendation) (counts : List Nat → Nat),
      List.Sublist (diversityScan cap counts l) l := by
  intro l
  induction l with
  | nil =>
    intro counts
    simp [diversityScan]
  | cons r rest ih =>
    intro counts
    unfold diversityScan
    by_cases h : counts r.skill.category < cap
    · rw [if_pos h]
      exact List.Sublist.cons₂ r (ih _)
    · rw [if_neg h]
      exact List.Sublist.cons r (ih _)

/-- The ranking stage returns a list sorted by descending total score. -/
theorem rank_pairwise (installed : List (List Nat)) (threshold : ℚ) (limit cap : Nat)
    (recs : List SkillRecommendation) :
    (rankRecommendations installed threshold limit cap recs).Pairwise
      (fun a b => b.total ≤ a.total) := by
  unfold rankRecommendations
  have h1 := pairwise_sortByScore (recs.filter
    (fun r => decide (r.skill.identifier ∉ installed ∧ threshold ≤ r.total)))
  exact List.Pairwise.sublist (List.take_sublist _ _)
    (List.Pairwise.sublist (diversityScan_sublist cap _ _) h1)

/-- Every entry returned by the ranking stage passes the score threshold
and is not already installed. -/
theorem rank_mem {installed : List (List Nat)} {threshold : ℚ} {limit cap : Nat}
    {recs : List SkillRecommendation} {r : SkillRecommendation}
    (h : r ∈ rankRecommendations installed threshold limit cap recs) :
    r.skill.identifier ∉ installed ∧ threshold ≤ r.total := by
  simp only [rankRecommendations] at h
  have h1 := (List.take_subset _ _) h
  have h2 := (diversityScan_sublist cap _ _).subset h1
  have h3 := mem_sortByScore.mp h2
  have h4 := List.mem_filter.mp h3
  exact of_decide_eq_true h4.2

/-- C7: the recommendation pipeline is a total function of its raw,
possibly partial inputs — parse failures and fetch failures are absorbed
by defaults and the fallback chain — and it always returns a ranked list:
sorted by descending total score, every entry at or above the threshold
and not already installed. -/
theorem pipeline_total_sorted (w : ScoringWeights) (raw : RawProject) (force : Bool)
    (now : Nat) (cache : Option RegistryCache) (fetched : List RegistrySkill)
    (threshold : ℚ) (limit cap : Nat) :
    (runPipeline w raw force now cache fetched threshold limit cap).Pairwise
      (fun a b => b.total ≤ a.total)
    ∧ ∀ r ∈ runPipeline w raw force now cache fetched threshold limit cap,
        threshold ≤ r.total ∧ r.skill.identifier ∉ raw.installedCapabilities := by
  constructor
  · exact rank_pairwise _ _ _ _ _
  · intro r hr
    have h := rank_mem hr
    exact ⟨h.2, h.1⟩
